import Mathlib

/-!
Verification development for the Spider-house listing-ingestion pipeline.

The Python sources are shallowly embedded:
* Python scalar values (as they appear in ad dictionaries) become the
  inductive type `Value`; Python floats are modelled as exact rationals.
* Python dicts become ordered association lists (`Rec`), matching the
  insertion-order semantics of `dict`.
* `src/scraper_leboncoin.py`'s coercion helpers, `src/utils.py`'s
  `validate_data`, `src/storage.py`'s `validate_data` / `process_ad`, and
  `src/scraper_base.py`'s `scrape_listings` are translated function by
  function below, each in a namespace named after its module.
-/

/-- A Python float, modelled as the exact decimal `num / 10 ^ exp` (every
float the embedded code produces comes from a decimal literal, and the
claims' values are exact in binary64, so the decimal model is faithful
where the code is exercised). -/
structure PFloat where
  num : Int
  exp : Nat
deriving Repr, DecidableEq

/-- The rational value a `PFloat` denotes (used in theorem statements). -/
def PFloat.toRat (f : PFloat) : ℚ :=
  (f.num : ℚ) / (10 : ℚ) ^ f.exp

/-- A Python value as it appears in an ad record: `None`, `int`, `float`,
`str`, `bool`, or `list`. -/
inductive Value where
  | vnull : Value
  | vint : Int → Value
  | vfloat : PFloat → Value
  | vstr : String → Value
  | vbool : Bool → Value
  | vlist : List Value → Value
deriving Repr

open Value

mutual

/-- Structural (Lean-level) equality test for `Value`. -/
def valueBeq : Value → Value → Bool
  | vnull, vnull => true
  | vint a, vint b => a == b
  | vfloat a, vfloat b => a == b
  | vstr a, vstr b => a == b
  | vbool a, vbool b => a == b
  | vlist a, vlist b => valueBeqList a b
  | _, _ => false

/-- Structural equality test for lists of `Value`s. -/
def valueBeqList : List Value → List Value → Bool
  | [], [] => true
  | a :: as, b :: bs => valueBeq a b && valueBeqList as bs
  | _, _ => false

end

mutual

theorem valueBeq_iff : (a b : Value) → (valueBeq a b = true ↔ a = b)
  | vnull, vnull => by simp [valueBeq]
  | vnull, vint _ | vnull, vfloat _ | vnull, vstr _ | vnull, vbool _
  | vnull, vlist _ => by simp [valueBeq]
  | vint _, vnull | vint _, vfloat _ | vint _, vstr _ | vint _, vbool _
  | vint _, vlist _ => by simp [valueBeq]
  | vfloat _, vnull | vfloat _, vint _ | vfloat _, vstr _ | vfloat _, vbool _
  | vfloat _, vlist _ => by simp [valueBeq]
  | vstr _, vnull | vstr _, vint _ | vstr _, vfloat _ | vstr _, vbool _
  | vstr _, vlist _ => by simp [valueBeq]
  | vbool _, vnull | vbool _, vint _ | vbool _, vfloat _ | vbool _, vstr _
  | vbool _, vlist _ => by simp [valueBeq]
  | vlist _, vnull | vlist _, vint _ | vlist _, vfloat _ | vlist _, vstr _
  | vlist _, vbool _ => by simp [valueBeq]
  | vint a, vint b => by simp [valueBeq]
  | vfloat a, vfloat b => by simp [valueBeq]
  | vstr a, vstr b => by simp [valueBeq]
  | vbool a, vbool b => by simp [valueBeq]
  | vlist a, vlist b => by
      simpa [valueBeq] using valueBeqList_iff a b

theorem valueBeqList_iff : (l m : List Value) → (valueBeqList l m = true ↔ l = m)
  | [], [] => by simp [valueBeqList]
  | [], _ :: _ => by simp [valueBeqList]
  | _ :: _, [] => by simp [valueBeqList]
  | a :: as, b :: bs => by
      have h1 := valueBeq_iff a b
      have h2 := valueBeqList_iff as bs
      simp [valueBeqList, h1, h2]

end

instance : DecidableEq Value := fun a b =>
  decidable_of_iff (valueBeq a b = true) (valueBeq_iff a b)

/-- Numeric view used by Python `==`: ints, floats and bools (True = 1,
False = 0) compare by numeric value. -/
def pyNum : Value → Option PFloat
  | vint n => some ⟨n, 0⟩
  | vfloat f => some f
  | vbool b => some ⟨if b then 1 else 0, 0⟩
  | _ => none

/-- Equality of the exact decimals, by cross multiplication. -/
def pfEq (a b : PFloat) : Bool :=
  a.num * (10 : Int) ^ b.exp == b.num * (10 : Int) ^ a.exp

mutual
/-- Python `==` on the embedded values: numeric cross-type equality
(`100 == 100.0`, `True == 1`), structural equality on strings and `None`,
pointwise equality on lists.  (Python's `dict` values never reach these
comparisons in the embedded code paths.) -/
def pyEq : Value → Value → Bool
  | vnull, vnull => true
  | vstr s, vstr t => s == t
  | vlist l, vlist m => pyEqList l m
  | a, b =>
      match pyNum a, pyNum b with
      | some x, some y => pfEq x y
      | _, _ => false

def pyEqList : List Value → List Value → Bool
  | [], [] => true
  | a :: as, b :: bs => pyEq a b && pyEqList as bs
  | _, _ => false
end

/-- Python truthiness (`bool(value)` / `if value:`). -/
def pyTruthy : Value → Bool
  | vnull => false
  | vbool b => b
  | vint n => n != 0
  | vfloat f => f.num != 0
  | vstr s => s != ""
  | vlist l => !l.isEmpty

/-- `isinstance(value, int)` — Python `bool` is a subclass of `int`. -/
def vIsInt : Value → Bool
  | vint _ => true
  | vbool _ => true
  | _ => false

/-- `isinstance(value, (int, float))` — bools count as ints. -/
def vIsNum : Value → Bool
  | vint _ => true
  | vfloat _ => true
  | vbool _ => true
  | _ => false

/-- `isinstance(value, str)`. -/
def vIsStr : Value → Bool
  | vstr _ => true
  | _ => false

/-- `isinstance(value, bool)` — only actual bools, ints are not bools. -/
def vIsBool : Value → Bool
  | vbool _ => true
  | _ => false

/-- `isinstance(value, list)`. -/
def vIsList : Value → Bool
  | vlist _ => true
  | _ => false

/-- Python `len(value)` for the shapes that occur in the validated records
(strings and lists; `len` of any other embedded value would raise in
Python, a path no validated field reaches). -/
def vLen : Value → Nat
  | vstr s => s.length
  | vlist l => l.length
  | _ => 0

/-- A Python dict with string keys, as an insertion-ordered association
list (keys are unique in any dict built by the sources). -/
abbrev Rec := List (String × Value)

/-- Lookup of a present key (`dict[k]` / successful `dict.get(k)`). -/
def rfind : Rec → String → Option Value
  | [], _ => none
  | (k', v) :: t, k => if k' == k then some v else rfind t k

/-- `dict.get(k)`: `None` when the key is absent. -/
def rget (r : Rec) (k : String) : Value :=
  (rfind r k).getD vnull

/-- `k in dict`. -/
def rhas (r : Rec) (k : String) : Bool :=
  (rfind r k).isSome

/-- `dict[k] = v`: replace in place if present (keeping position), else
append — Python dict assignment semantics. -/
def rset : Rec → String → Value → Rec
  | [], k, v => [(k, v)]
  | (k', v') :: t, k, v =>
      if k' == k then (k', v) :: t else (k', v') :: rset t k v

/-- `del dict[k]` (removes the first — in a dict, only — occurrence). -/
def rerase : Rec → String → Rec
  | [], _ => []
  | (k', v') :: t, k => if k' == k then t else (k', v') :: rerase t k

/-- The keys of a dict, in order. -/
def rkeys (r : Rec) : List String := r.map (·.1)

namespace PyStr

/-- One run of base-10 digits, allowing single underscores between digits
as Python's `int()`/`float()` do; returns the value, the digit count and
the unconsumed rest. -/
def grabDigitsGo (acc : Nat) (cnt : Nat) : List Char → (Nat × Nat × List Char)
  | '_' :: d :: rest =>
      if d.isDigit then grabDigitsGo (acc * 10 + (d.toNat - 48)) (cnt + 1) rest
      else (acc, cnt, '_' :: d :: rest)
  | d :: rest =>
      if d.isDigit then grabDigitsGo (acc * 10 + (d.toNat - 48)) (cnt + 1) rest
      else (acc, cnt, d :: rest)
  | [] => (acc, cnt, [])

/-- Digits parser entry: fails unless the input starts with a digit. -/
def grabDigits : List Char → Option (Nat × Nat × List Char)
  | c :: cs =>
      if c.isDigit then some (grabDigitsGo (c.toNat - 48) 1 cs) else none
  | [] => none

/-- Optional `+`/`-` sign; returns `true` for a negative sign. -/
def grabSign : List Char → (Bool × List Char)
  | '-' :: cs => (true, cs)
  | '+' :: cs => (false, cs)
  | cs => (false, cs)

/-- Leading/trailing whitespace stripping, as `int()`/`float()` allow. -/
def stripWs (l : List Char) : List Char :=
  ((l.dropWhile Char.isWhitespace).reverse.dropWhile Char.isWhitespace).reverse

/-- Python `int(s)` on a string: optional surrounding whitespace, optional
sign, then one digit run — nothing else (so `"1 234"` raises
`ValueError`). -/
def pyIntOfStr (s : String) : Option Int :=
  let l := stripWs s.data
  let (neg, l1) := grabSign l
  match grabDigits l1 with
  | some (v, _, []) => some (if neg then -(v : Int) else (v : Int))
  | _ => none

/-- Exponent suffix of a float literal: `e`/`E`, optional sign, digits. -/
def grabExp : List Char → Option (Int × List Char)
  | 'e' :: cs =>
      let (neg, cs1) := grabSign cs
      match grabDigits cs1 with
      | some (v, _, rest) => some ((if neg then -(v : Int) else (v : Int)), rest)
      | none => none
  | 'E' :: cs =>
      let (neg, cs1) := grabSign cs
      match grabDigits cs1 with
      | some (v, _, rest) => some ((if neg then -(v : Int) else (v : Int)), rest)
      | none => none
  | _ => none

/-- The mantissa of a float literal: `digits[.digits]` or `.digits`;
returns the numerator and the number of fractional digits. -/
def grabMantissa (l : List Char) : Option (Nat × Nat × List Char) :=
  match grabDigits l with
  | some (ip, _, rest) =>
      match rest with
      | '.' :: rest1 =>
          match grabDigits rest1 with
          | some (fp, fc, rest2) => some (ip * 10 ^ fc + fp, fc, rest2)
          | none => some (ip, 0, rest1)
      | _ => some (ip, 0, rest)
  | none =>
      match l with
      | '.' :: rest1 =>
          match grabDigits rest1 with
          | some (fp, fc, rest2) => some (fp, fc, rest2)
          | none => none
      | _ => none

/-- Assemble mantissa, fraction-digit count and exponent into the exact
decimal `± num·10^e / 10^fc`. -/
def assembleFloat (neg : Bool) (num : Nat) (fc : Nat) (e : Int) : PFloat :=
  let se : Int := e - (fc : Int)
  let n : Int := if neg then -(num : Int) else (num : Int)
  if 0 ≤ se then ⟨n * (10 : Int) ^ se.toNat, 0⟩ else ⟨n, (-se).toNat⟩

/-- Python `float(s)` on a string (the `inf`/`nan` spellings, which no
embedded call site produces, are not modelled): optional whitespace and
sign, mantissa, optional exponent; the value is exact, Python's binary
rounding being irrelevant at the decimal magnitudes the claims use. -/
def pyFloatOfStr (s : String) : Option PFloat :=
  let l := stripWs s.data
  let (neg, l1) := grabSign l
  match grabMantissa l1 with
  | some (num, fc, rest) =>
      match grabExp rest with
      | some (e, rest2) =>
          match rest2 with
          | [] => some (assembleFloat neg num fc e)
          | _ => none
      | none =>
          match rest with
          | [] => some (assembleFloat neg num fc 0)
          | _ => none
  | none => none

end PyStr

/-- `str.upper()` on one ASCII character (the embedded data is ASCII). -/
def pyCharUpper (c : Char) : Char :=
  if 'a' ≤ c && c ≤ 'z' then Char.ofNat (c.toNat - 32) else c

/-- `str.upper()` (ASCII). -/
def pyUpper (s : String) : String :=
  String.mk (s.data.map pyCharUpper)

/-- `str.lower()` on one ASCII character. -/
def pyCharLower (c : Char) : Char :=
  if 'A' ≤ c && c ≤ 'Z' then Char.ofNat (c.toNat + 32) else c

/-- `str.lower()` (ASCII). -/
def pyLower (s : String) : String :=
  String.mk (s.data.map pyCharLower)

namespace ScraperLeboncoin

/-- `to_int` from `extract_properties` (src/scraper_leboncoin.py):
`int(value)` under `try/except (TypeError, ValueError)`.  `int` truncates
floats toward zero, accepts bools, and parses plain integer strings only. -/
def to_int : Value → Option Int
  | vint n => some n
  | vbool b => some (if b then 1 else 0)
  | vfloat f => some (Int.tdiv f.num ((10 : Int) ^ f.exp))
  | vstr s => PyStr.pyIntOfStr s
  | vnull => none
  | vlist _ => none

/-- `to_float` from `extract_properties`:
`float(str(value).replace(' ', '').replace(',', '.'))` under
`try/except (TypeError, ValueError)`.  `str` of a bool is `"True"`/`"False"`
and of `None` is `"None"`, neither of which `float` accepts; `str` of a
list starts with `'['` and is likewise rejected.  For floats the
`float(repr(x)) == x` round trip guaranteed by Python is used directly
(`repr` has no spaces or commas for the two `replace` calls to touch).
`replace(' ', '')` deletes every space and `replace(',', '.')` maps every
comma, both single-character replacements. -/
def to_float : Value → Option PFloat
  | vint n => some ⟨n, 0⟩
  | vfloat f => some f
  | vstr s =>
      PyStr.pyFloatOfStr (String.mk
        ((s.data.filter (fun c => !(c == ' '))).map
          (fun c => if c == ',' then '.' else c)))
  | vbool _ => none
  | vnull => none
  | vlist _ => none

/-- `to_bool` from `extract_properties`: a string yields
`value.lower() == 'true'`; anything else is coerced with `bool(value)`.
The function always returns a definite `bool` — never `None`. -/
def to_bool : Value → Bool
  | vstr s => pyLower s == "true"
  | v => pyTruthy v

/-- `map_real_estate_type`: case-sensitive `dict.get` lookup in the fixed
French→canonical table, defaulting to `'Other'` for every unmapped key. -/
def map_real_estate_type (v : Value) : String :=
  if v = vstr "Appartement" then "Apartment"
  else if v = vstr "Maison" then "House"
  else if v = vstr "Autre" then "Other"
  else if v = vstr "Parking" then "Parking"
  else if v = vstr "Terrain" then "Land"
  else "Other"

/-- `map_owner_type`: `'pro' → 'professional'`, `'particulier' → 'private'`,
anything else defaults to `'private'`. -/
def map_owner_type (v : Value) : String :=
  if v = vstr "pro" then "professional"
  else if v = vstr "particulier" then "private"
  else "private"

/-- Membership of `needle` at the head of `hay` (character lists). -/
def listLeads : List Char → List Char → Bool
  | [], _ => true
  | _ :: _, [] => false
  | a :: as, b :: bs => a == b && listLeads as bs

/-- Python's substring test `needle in hay` on character lists. -/
def listHasSub (needle : List Char) : List Char → Bool
  | [] => needle.isEmpty
  | b :: bs => listLeads needle (b :: bs) || listHasSub needle bs

/-- Python's `sub in s` on strings. -/
def strHasSub (needle hay : String) : Bool :=
  listHasSub needle.data hay.data

/-- `validate_energy_rate` from `extract_properties`:
`value.upper() if value and value.upper() in 'ABCDEFG' else None`.
Note `in` on strings is a substring test, not membership of a single
character.  (A truthy non-string argument would raise `AttributeError`
in Python; the embedded call sites pass strings or `None`.) -/
def validate_energy_rate : Value → Value
  | vstr s =>
      if s != "" && strHasSub (pyUpper s) "ABCDEFG" then vstr (pyUpper s)
      else vnull
  | _ => vnull

end ScraperLeboncoin

/-- Concatenation of error-list segments, in order. -/
def catAll (ls : List (List String)) : List String :=
  ls.foldr (fun a b => a ++ b) []

/-- One `if cond: errors.append(msg)` step. -/
def errIf (c : Bool) (m : String) : List String :=
  if c then [m] else []

/-- `re.match('^[A-G]$', s)`, used by both utils.py and storage.py:
exactly one character, `A`–`G`.  (`re.match` on a non-string would raise;
in every embedded call the surrounding checks have already recorded an
error for any non-string value that reaches it.) -/
def regexAG : Value → Bool
  | vstr s =>
      match s.data with
      | [c] => 'A' ≤ c && c ≤ 'G'
      | _ => false
  | _ => false

/-- `value < 0` on the numeric values the `annual_charges` checks reach
(both validators first require `isinstance(value, (int, float))`, so no
other shape reaches the comparison without an error already recorded). -/
def vNeg : Value → Bool
  | vint n => n < 0
  | vfloat f => f.num < 0
  | _ => false

namespace Utils

/-- `x in [a, b, ...]` for a list of string literals (Python list
membership via `==`). -/
def pyInStrs (v : Value) (ss : List String) : Bool :=
  ss.any (fun s => pyEq v (vstr s))

/-- Is the embedded value a list of strings
(`all(isinstance(url, str) for url in images)`)? -/
def allStr : Value → Bool
  | vlist l => l.all vIsStr
  | _ => false

/-- The `location_zipcode` range test `10000 <= z <= 99999` (`True`/`False`
compare as 1/0 and fall outside the range). -/
def zipInRange : Value → Bool
  | vint n => 10000 ≤ n && n ≤ 99999
  | _ => false

/-- `validate_data` from src/utils.py: the flat per-field check list,
returning the error messages in source order. -/
def validate_data (ad : Rec) : List String :=
  catAll [
  errIf (!vIsInt (rget ad "id")) "Invalid or missing id",
  errIf (!pyTruthy (rget ad "publication_date")) "Missing publication_date",
  errIf (!pyInStrs (rget ad "status") ["active", "inactive"]) "Invalid status",
  errIf (!pyTruthy (rget ad "title") || vLen (rget ad "title") > 100) "Invalid or missing title",
  errIf (!pyTruthy (rget ad "url") || vLen (rget ad "url") > 255) "Invalid or missing url",
  errIf (!vIsNum (rget ad "price")) "Invalid or missing price",
  errIf (pyTruthy (rget ad "latitude") && !vIsNum (rget ad "latitude")) "Invalid latitude",
  errIf (pyTruthy (rget ad "longitude") && !vIsNum (rget ad "longitude")) "Invalid longitude",
  errIf (pyTruthy (rget ad "location_city") && vLen (rget ad "location_city") > 100) "Invalid location_city",
  errIf (pyTruthy (rget ad "location_zipcode") &&
      (!vIsInt (rget ad "location_zipcode") || !zipInRange (rget ad "location_zipcode"))) "Invalid location_zipcode",
  errIf (!pyInStrs (rget ad "type") ["professional", "private"]) "Invalid type",
  errIf (!pyInStrs (rget ad "real_estate_type") ["Apartment", "House", "Other", "Parking", "Land"]) "Invalid real_estate_type",
  errIf (pyTruthy (rget ad "square") && !vIsNum (rget ad "square")) "Invalid square",
  errIf (pyTruthy (rget ad "rooms") && !vIsInt (rget ad "rooms")) "Invalid rooms",
  errIf (pyTruthy (rget ad "energy_rate") && !regexAG (rget ad "energy_rate")) "Invalid energy_rate",
  errIf (pyTruthy (rget ad "ges") && !regexAG (rget ad "ges")) "Invalid ges",
  errIf (pyTruthy (rget ad "bathrooms") && !vIsInt (rget ad "bathrooms")) "Invalid bathrooms",
  errIf (pyTruthy (rget ad "land_surface") && !vIsNum (rget ad "land_surface")) "Invalid land_surface",
  errIf (pyTruthy (rget ad "parking") && !vIsBool (rget ad "parking")) "Invalid parking",
  errIf (pyTruthy (rget ad "cellar") && !vIsBool (rget ad "cellar")) "Invalid cellar",
  errIf (pyTruthy (rget ad "swimming_pool") && !vIsBool (rget ad "swimming_pool")) "Invalid swimming_pool",
  errIf (pyTruthy (rget ad "equipments") && !vIsStr (rget ad "equipments")) "Invalid equipments",
  errIf (pyTruthy (rget ad "elevator") && !vIsBool (rget ad "elevator")) "Invalid elevator",
  errIf (pyTruthy (rget ad "fai_included") && !vIsBool (rget ad "fai_included")) "Invalid fai_included",
  errIf (pyTruthy (rget ad "floor_number") && !vIsInt (rget ad "floor_number")) "Invalid floor_number",
  errIf (pyTruthy (rget ad "nb_floors_building") && !vIsInt (rget ad "nb_floors_building")) "Invalid nb_floors_building",
  errIf (pyTruthy (rget ad "outside_access") && vLen (rget ad "outside_access") > 50) "Invalid outside_access",
  errIf (pyTruthy (rget ad "building_year") && !vIsInt (rget ad "building_year")) "Invalid building_year",
  errIf (pyTruthy (rget ad "annual_charges") &&
      (!vIsNum (rget ad "annual_charges") || vNeg (rget ad "annual_charges"))) "Invalid annual_charges",
  errIf (pyTruthy (rget ad "bedrooms") && !vIsInt (rget ad "bedrooms")) "Invalid bedrooms",
  errIf (pyTruthy (rget ad "immo_sell_type") && vLen (rget ad "immo_sell_type") > 20) "Invalid immo_sell_type",
  errIf (pyTruthy (rget ad "old_price") && !vIsNum (rget ad "old_price")) "Invalid old_price",
  errIf (!pyTruthy (rget ad "images") || !vIsList (rget ad "images") ||
      !allStr (rget ad "images") || vLen (rget ad "images") == 0) "Missing or invalid images"
  ]

end Utils

namespace Storage

/-- The column types of the `Listing` model that matter to
`validate_data`'s `isinstance` dispatch.  In SQLAlchemy, `BigInteger` is a
subclass of `Integer`, and both `Text` and `Enum` are subclasses of
`String` — so the `String` branch of the `elif` chain captures them and
the dedicated `Text`/`Enum` branches are unreachable.  An `Enum` column's
`length` defaults to the length of its longest member.  `DateTime` and
`Boolean` columns match none of the `isinstance` branches. -/
inductive CType where
  | cInteger : CType
  | cDecimal : CType
  | cString : Nat → CType
  | cText : CType
  | cEnum : List String → CType
  | cOther : CType
deriving Repr, DecidableEq

/-- One column of the `Listing` model: name, type, `nullable` flag. -/
structure ColSpec where
  name : String
  ctype : CType
  nullable : Bool
deriving Repr, DecidableEq

/-- The `length` the `String` branch sees: declared length for `String`,
none for `Text`, longest member for `Enum`.  (All declared lengths are
positive, so the branch's truthiness test on `length` never skips.) -/
def CType.strLen : CType → Option Nat
  | CType.cString l => some l
  | CType.cEnum vals => some (vals.foldl (fun m s => max m s.length) 0)
  | _ => none

/-- The columns of `Listing` (src/storage.py lines 134–167), in
declaration order. -/
def listingCols : List ColSpec := [
  ⟨"id", CType.cInteger, false⟩,
  ⟨"title", CType.cString 100, false⟩,
  ⟨"description", CType.cText, true⟩,
  ⟨"url", CType.cString 255, false⟩,
  ⟨"publication_date", CType.cOther, false⟩,
  ⟨"price", CType.cDecimal, false⟩,
  ⟨"old_price", CType.cDecimal, true⟩,
  ⟨"immo_sell_type", CType.cString 20, true⟩,
  ⟨"status", CType.cEnum ["active", "inactive"], false⟩,
  ⟨"type", CType.cEnum ["professional", "private"], false⟩,
  ⟨"real_estate_type", CType.cEnum ["Apartment", "House", "Other", "Parking", "Land"], false⟩,
  ⟨"square", CType.cDecimal, true⟩,
  ⟨"rooms", CType.cInteger, true⟩,
  ⟨"bedrooms", CType.cInteger, true⟩,
  ⟨"bathrooms", CType.cInteger, true⟩,
  ⟨"energy_rate", CType.cString 1, true⟩,
  ⟨"ges", CType.cString 1, true⟩,
  ⟨"latitude", CType.cDecimal, true⟩,
  ⟨"longitude", CType.cDecimal, true⟩,
  ⟨"location_city", CType.cString 100, true⟩,
  ⟨"location_inseecode", CType.cString 5, false⟩,
  ⟨"adresse", CType.cString 100, true⟩,
  ⟨"land_surface", CType.cDecimal, true⟩,
  ⟨"parking", CType.cOther, true⟩,
  ⟨"cellar", CType.cOther, true⟩,
  ⟨"swimming_pool", CType.cOther, true⟩,
  ⟨"equipments", CType.cText, true⟩,
  ⟨"elevator", CType.cOther, true⟩,
  ⟨"fai_included", CType.cOther, true⟩,
  ⟨"floor_number", CType.cInteger, true⟩,
  ⟨"nb_floors_building", CType.cInteger, true⟩,
  ⟨"outside_access", CType.cString 50, true⟩,
  ⟨"building_year", CType.cInteger, true⟩,
  ⟨"annual_charges", CType.cDecimal, true⟩]

/-- `{col.name for col in Listing.__table__.columns}`. -/
def listingFieldNames : List String := listingCols.map (·.name)

/-- `Listing.__table__.columns[key].nullable` (consulted only for keys
that are column names). -/
def colNullable (k : String) : Bool :=
  ((listingCols.find? (fun c => c.name == k)).map (·.nullable)).getD false

/-- The `isinstance` `elif` chain of storage.py's `validate_data` for one
column with a non-`None` value. -/
def typeErrors (c : ColSpec) (v : Value) : List String :=
  match c.ctype with
  | CType.cInteger =>
      errIf (!vIsInt v) ("Invalid type for " ++ c.name ++ ", expected integer")
  | CType.cDecimal =>
      errIf (!vIsNum v) ("Invalid type for " ++ c.name ++ ", expected decimal/float")
  | CType.cOther => []
  | t =>
      if !vIsStr v then ["Invalid type for " ++ c.name ++ ", expected string"]
      else
        match t.strLen with
        | some l => errIf (vLen v > l) (c.name ++ " exceeds maximum length of " ++ toString l)
        | none => []

/-- The trailing per-column special checks of storage.py's
`validate_data` (each with its own `value is not None` guard). -/
def specialErrors (name : String) (v : Value) : List String :=
  catAll [
  errIf (name == "energy_rate" && !valueBeq v vnull && !regexAG v)
    "Invalid energy_rate, expected a single letter from A to G",
  errIf (name == "ges" && !valueBeq v vnull && !regexAG v)
    "Invalid ges, expected a single letter from A to G",
  errIf (name == "annual_charges" && !valueBeq v vnull && vNeg v)
    "Invalid annual_charges, must be non-negative"]

/-- The errors one column contributes: the missing-required check
(`continue` skips everything else for that column), then the type checks,
then the special checks. -/
def colErrors (ad : Rec) (c : ColSpec) : List String :=
  let value := rget ad c.name
  if !c.nullable && valueBeq value vnull then
    ["Missing required field: " ++ c.name]
  else
    (if !valueBeq value vnull then typeErrors c value else []) ++
      specialErrors c.name value

/-- `validate_data(ad, Listing)` from src/storage.py: iterate the model's
columns in order, collecting error messages. -/
def validate_data (ad : Rec) : List String :=
  catAll (listingCols.map (fun c => colErrors ad c))

/-- `validate_image_data` from src/storage.py.  (`isinstance(ad_id,
BigInteger)` tests against the SQLAlchemy type class, which no Python
number is an instance of, so only the `int` test matters; `ad_id <= 0` is
reached only for ints thanks to `or` short-circuiting.) -/
def validate_image_data (adId : Value) (url : Value) : List String :=
  (match adId with
   | vint n => errIf (n ≤ 0) "Invalid or missing ad_id"
   | vbool b => errIf (!b) "Invalid or missing ad_id"
   | _ => ["Invalid or missing ad_id"]) ++
  (if !pyTruthy url || !vIsStr url then ["Invalid or missing URL"]
   else errIf (vLen url > 255) "URL exceeds maximum length of 255 characters")

/-- A row of the `cities` table as step 1 of `process_ad` reads it. -/
structure City where
  zipcode : String
  city_name : String
  insee_code : String
deriving Repr, DecidableEq

/-- The persistent state `process_ad` touches: the `cities` rows it
queries, the `listings` rows, and the `images` rows as
`(ad_id, url)` pairs. -/
structure DB where
  cities : List City
  listings : List Rec
  images : List (Value × Value)
deriving DecidableEq

/-- Python `a or b` (value-returning). -/
def pyOr (a b : Value) : Value :=
  if pyTruthy a then a else b

/-- Step 1 of `process_ad`: zipcode/city lookup — resolve
`location_inseecode` from the `cities` table when both a `zipcode` and a
city name are present, then delete `zipcode`. -/
def step1 (cities : List City) (ad : Rec) : Rec :=
  if rhas ad "zipcode" && (rhas ad "location_city" || rhas ad "city") then
    let cityName := pyOr (rget ad "location_city") (rget ad "city")
    let found := cities.find? (fun cr =>
      pyEq (vstr cr.zipcode) (rget ad "zipcode") &&
        pyEq (vstr cr.city_name) cityName)
    let ad1 :=
      match found with
      | some cr => rset ad "location_inseecode" (vstr cr.insee_code)
      | none => ad
    rerase ad1 "zipcode"
  else ad

/-- Step 2 of `process_ad`: map `''`/`None` values of nullable listing
fields to `None`. -/
def step2 (ad : Rec) : Rec :=
  ad.map (fun p =>
    if listingFieldNames.contains p.1 &&
        (pyEq p.2 (vstr "") || pyEq p.2 vnull) && colNullable p.1
    then (p.1, vnull) else p)

/-- Step 3 of `process_ad`: drop every key that is not a `Listing` column
(note this drops `images`, which is a relationship, not a column). -/
def step3 (ad : Rec) : Rec :=
  ad.filter (fun p => listingFieldNames.contains p.1)

/-- Steps 1–3 of `process_ad`, producing the dict that is validated and
upserted. -/
def cleanAd (db : DB) (ad : Rec) : Rec :=
  step3 (step2 (step1 db.cities ad))

/-- The disjunctive lookup filter:
`(Listing.id == ad['id']) | (Listing.url == ad['url']) | (Listing.title == ad['title'])`. -/
def admatch (ad : Rec) (r : Rec) : Bool :=
  pyEq (rget r "id") (rget ad "id") ||
  pyEq (rget r "url") (rget ad "url") ||
  pyEq (rget r "title") (rget ad "title")

/-- `sum([existing.id == ad['id'], existing.url == ad['url'],
existing.title == ad['title']])`. -/
def matchCount (ex ad : Rec) : Nat :=
  (pyEq (rget ex "id") (rget ad "id")).toNat +
  (pyEq (rget ex "url") (rget ad "url")).toNat +
  (pyEq (rget ex "title") (rget ad "title")).toNat

/-- The generic field-update loop of the accepted-match branch: for every
key of the candidate except `price` and `images`, overwrite the stored
value when it differs (each iteration reads the current state, as
`getattr`/`setattr` do). -/
def updFields (ex : Rec) : List (String × Value) → Rec
  | [] => ex
  | (k, v) :: rest =>
      if !(k == "price") && !(k == "images") && !pyEq (rget ex k) v
      then updFields (rset ex k v) rest
      else updFields ex rest

/-- The separate price handling: when the candidate's price differs, move
the stored price into `old_price`, then overwrite `price`. -/
def applyPrice (ex : Rec) (ad : Rec) : Rec :=
  if !pyEq (rget ex "price") (rget ad "price") then
    rset (rset ex "old_price" (rget ex "price")) "price" (rget ad "price")
  else ex

/-- Replace the first record satisfying `p` by its image under `f`
(`session.query(...).first()` followed by in-place mutation). -/
def upd (ls : List Rec) (p : Rec → Bool) (f : Rec → Rec) : List Rec :=
  match ls with
  | [] => []
  | r :: rs => if p r then f r :: rs else r :: upd rs p f

/-- `Listing(**{k: v for k, v in ad.items() if k != 'images'})`: a fresh
row with every column set from the candidate, absent columns defaulting
to `None`. -/
def mkNewAd (ad : Rec) : Rec :=
  listingCols.map (fun c => (c.name, rget ad c.name))

/-- `ad.get('images', [])` as iterated by the image loop.  (Step 3 always
removes the `images` key before this point, so the loop body is dead; a
present non-list would make Python's `for` raise, a shape no call path
produces.) -/
def imagesOf (ad : Rec) : List Value :=
  match rfind ad "images" with
  | some (vlist l) => l
  | _ => []

/-- The image-insertion loop of the insert branch: validate each URL and
append an `(ad_id, url)` row for the valid ones. -/
def insertImages (adId : Value) (urls : List Value)
    (imgs : List (Value × Value)) : List (Value × Value) :=
  urls.foldl
    (fun acc u =>
      if (validate_image_data adId u).isEmpty then acc ++ [(adId, u)] else acc)
    imgs

/-- `process_ad` from src/storage.py: clean (steps 1–3), validate, then
either update the first disjunctively-matching row (when at least 2 of
the 3 identifiers agree), do nothing (partial match), or insert a new row
plus its images.  `session.commit()` makes the built state durable; every
modelled operation succeeds, so the `except` rollback path is not
exercised. -/
def process_ad (db : DB) (ad0 : Rec) : DB :=
  let ad := cleanAd db ad0
  if !(validate_data ad).isEmpty then db
  else
    match db.listings.find? (admatch ad) with
    | some ex =>
        if 2 ≤ matchCount ex ad then
          let updated := upd db.listings (admatch ad) (fun r => applyPrice (updFields r ad) ad)
          { db with listings := updated }
        else db
    | none =>
        let newAd := mkNewAd ad
        let newImages := insertImages (rget newAd "id") (imagesOf ad) db.images
        { db with listings := db.listings ++ [newAd], images := newImages }

end Storage

namespace ScraperLeboncoin

/-- One entry of a raw ad's `attributes` list.  The dict build
`{attr['key']: attr['value_label']}` subscripts both fields, so they are
mandatory in every processed triple. -/
structure Attr where
  key : String
  value : Value
  value_label : Value
deriving Repr, DecidableEq

/-- A raw ad record as `extract_properties` reads it: top-level scalars
(each through `ad.get(...)`, absent meaning `None`), the nested
`location`/`owner`/`images` dicts (absent meaning `{}`), and the
attribute triples. -/
structure RawAd where
  list_id : Value := vnull
  first_publication_date : Value := vnull
  status : Value := vnull
  subject : Value := vnull
  body : Value := vnull
  url : Value := vnull
  price : Value := vnull
  location : Rec := []
  owner : Rec := []
  attributes : List Attr := []
  images : Rec := []
deriving Repr, DecidableEq

/-- `{attr['key']: attr['value_label'] for attr in ad.get('attributes', [])}`
(later duplicates overwrite earlier ones, as in a dict comprehension). -/
def buildAttrs (l : List Attr) : Rec :=
  l.foldl (fun acc a => rset acc a.key a.value_label) []

/-- Lift an optional int result back into a `Value` (`None` → `vnull`). -/
def optIntV : Option Int → Value
  | some n => vint n
  | none => vnull

/-- Lift an optional float result back into a `Value`. -/
def optFloatV : Option PFloat → Value
  | some f => vfloat f
  | none => vnull

/-- The price expression:
`to_float(ad.get('price')[0]) if isinstance(ad.get('price'), list) else to_float(ad.get('price'))`.
(Indexing an empty list would raise `IndexError` before `to_float` runs; the
site's payloads always carry a non-empty price list when it is a list.) -/
def priceOf (p : Value) : Value :=
  match p with
  | vlist (h :: _) => optFloatV (to_float h)
  | vlist [] => vnull
  | v => optFloatV (to_float v)

/-- `attributes.get('bedrooms').split()[0]`: first whitespace-separated
token (Python `str.split()` drops empty segments; an all-whitespace label
would make `[0]` raise, a shape the guard's truthiness already rules out
only for the empty string — the site's labels are non-blank). -/
def firstToken (s : String) : Option String :=
  ((s.data.splitOnP Char.isWhitespace).map String.mk).filter (fun t => t != "") |>.head?

/-- The bedrooms expression:
`to_int(attributes.get('bedrooms').split()[0]) if attributes.get('bedrooms') else None`
(the truthy guard means only a non-empty string label is split; a truthy
non-string would raise in Python and does not occur in the payloads). -/
def bedroomsOf (v : Value) : Value :=
  if pyTruthy v then
    match v with
    | vstr s =>
        match firstToken s with
        | some t => optIntV (to_int (vstr t))
        | none => vnull
    | _ => vnull
  else vnull

/-- The per-ad body of `extract_properties` (src/scraper_leboncoin.py
lines 135–175): build the attribute lookup, then the transformed ad dict
with its 31 keys in source order. -/
def extractAd (ad : RawAd) : Rec :=
  let attributes := buildAttrs ad.attributes
  [("id", ad.list_id),
   ("publication_date", ad.first_publication_date),
   ("status", ad.status),
   ("title", ad.subject),
   ("description", ad.body),
   ("url", ad.url),
   ("price", priceOf ad.price),
   ("latitude", rget ad.location "lat"),
   ("longitude", rget ad.location "lng"),
   ("location_city", rget ad.location "city"),
   ("location_zipcode", optIntV (to_int (rget ad.location "zipcode"))),
   ("type", vstr (map_owner_type (rget ad.owner "type"))),
   ("real_estate_type", vstr (map_real_estate_type ((rfind attributes "real_estate_type").getD (vstr "Other")))),
   ("square", optFloatV (to_float (rget attributes "square"))),
   ("rooms", optIntV (to_int (rget attributes "rooms"))),
   ("energy_rate", if rhas attributes "energy_rate" then validate_energy_rate (rget attributes "energy_rate") else vnull),
   ("ges", if rhas attributes "ges" then validate_energy_rate (rget attributes "ges") else vnull),
   ("bathrooms", optIntV (to_int (rget attributes "bathrooms"))),
   ("land_surface", optFloatV (to_float (rget attributes "land_plot_surface"))),
   ("parking", vbool (to_bool (rget attributes "parking"))),
   ("cellar", vbool (to_bool (rget attributes "cellar"))),
   ("swimming_pool", vbool (to_bool (rget attributes "swimming_pool"))),
   ("equipments", (rfind attributes "equipments").getD (vstr "")),
   ("elevator", vbool (to_bool (rget attributes "elevator"))),
   ("fai_included", vbool (to_bool (rget attributes "fai_included"))),
   ("floor_number", optIntV (to_int (rget attributes "floor_number"))),
   ("nb_floors_building", optIntV (to_int (rget attributes "nb_floors_building"))),
   ("outside_access", (rfind attributes "outside_access").getD (vstr "")),
   ("building_year", optIntV (to_int (rget attributes "building_year"))),
   ("annual_charges", optFloatV (to_float (rget attributes "annual_charges"))),
   ("bedrooms", bedroomsOf (rget attributes "bedrooms")),
   ("immo_sell_type", rget attributes "immo_sell_type"),
   ("old_price", optFloatV (to_float (rget attributes "old_price"))),
   ("images", (rfind ad.images "urls_large").getD (vlist []))]

/-- `extract_properties`: transform every ad of the list. -/
def extract_properties (ads_list : List RawAd) : List Rec :=
  ads_list.map extractAd

end ScraperLeboncoin

namespace ScraperBase

/-- Modelled from the spec: `get_known_listings` in src/scraper_base.py is
an unimplemented stub (`return []` under an "Implement the logic to get
known listings" comment); §4.5/§6 of the spec say the known-listings set
is fetched once at crawl start from the persistence collaborator
(`listKnownListingKeys`), so the embedding receives it from the caller. -/
def get_known_listings (store : List Value) : List Value := store

/-- `is_known_listing`: `ad_data['url'] in known_listings`. -/
def is_known_listing (ad_data : Rec) (known_listings : List Value) : Bool :=
  known_listings.any (fun k => pyEq (rget ad_data "url") k)

/-- The result of a (partial) crawl: the transformed ads passed to
`process_ad` in order, the database state, the processed count, and
whether the early-stop return fired. -/
structure CrawlOut where
  processed : List Rec
  db : Storage.DB
  count : Nat
  stopped : Bool
deriving DecidableEq

/-- The inner `for ad in ads_list` loop of `scrape_listings`: transform,
early-return when known, otherwise `process_ad` and count. -/
def adsLoop (transform : α → Rec) (known : List Value) :
    List α → Storage.DB → Nat → CrawlOut
  | [], db, n => ⟨[], db, n, false⟩
  | a :: rest, db, n =>
      let t := transform a
      if is_known_listing t known then ⟨[], db, n, true⟩
      else
        let r := adsLoop transform known rest (Storage.process_ad db t) (n + 1)
        ⟨t :: r.processed, r.db, r.count, r.stopped⟩

/-- `scrape_listings` from src/scraper_base.py.  The fetch/extract
pipeline for successive pages is abstracted as a stream of outcomes:
`none` models any of the three `break` conditions (no/`'noResult'` HTML,
no JSON, no ads — an exhausted stream likewise models the fetch failing),
`some ads` a page whose ad list was extracted (`some []` breaks, because
`if not ads_list` is true for an empty list).  The page counter starts at
1 and only the stream order matters here. -/
def scrape_listings (transform : α → Rec) (known : List Value) :
    List (Option (List α)) → Storage.DB → Nat → CrawlOut
  | [], db, n => ⟨[], db, n, false⟩
  | none :: _, db, n => ⟨[], db, n, false⟩
  | some ads :: rest, db, n =>
      if ads.isEmpty then ⟨[], db, n, false⟩
      else
        let r := adsLoop transform known ads db n
        if r.stopped then r
        else
          let s := scrape_listings transform known rest r.db r.count
          ⟨r.processed ++ s.processed, s.db, s.count, s.stopped⟩

end ScraperBase

section BasicLemmas

theorem pfEq_refl (a : PFloat) : pfEq a a = true := by
  simp [pfEq]

mutual

theorem pyEq_refl : (v : Value) → pyEq v v = true
  | vnull => by simp [pyEq]
  | vint n => by simp [pyEq, pyNum, pfEq]
  | vfloat f => by simp [pyEq, pyNum, pfEq]
  | vbool b => by cases b <;> simp [pyEq, pyNum, pfEq]
  | vstr s => by simp [pyEq]
  | vlist l => by simpa [pyEq] using pyEqList_refl l

theorem pyEqList_refl : (l : List Value) → pyEqList l l = true
  | [] => by simp [pyEqList]
  | a :: as => by simp [pyEqList, pyEq_refl a, pyEqList_refl as]

end

theorem rfind_rset_self (r : Rec) (k : String) (v : Value) :
    rfind (rset r k v) k = some v := by
  induction r with
  | nil => simp [rset, rfind]
  | cons p t ih =>
      by_cases h : p.1 = k
      · simp [rset, rfind, h]
      · cases p with
        | mk pk pv =>
            simp only at h
            simp [rset, rfind, h, ih]

theorem rfind_rset_ne (r : Rec) (k k' : String) (v : Value) (h : k' ≠ k) :
    rfind (rset r k v) k' = rfind r k' := by
  have hne : (k = k') = False := eq_false (fun hh => h hh.symm)
  induction r with
  | nil => simp [rset, rfind, hne]
  | cons p t ih =>
      cases p with
      | mk pk pv =>
          by_cases hp : pk = k
          · subst hp
            simp [rset, rfind, hne]
          · simp [rset, rfind, hp, ih]

theorem rget_rset_self (r : Rec) (k : String) (v : Value) :
    rget (rset r k v) k = v := by
  simp [rget, rfind_rset_self]

theorem rget_rset_ne (r : Rec) (k k' : String) (v : Value) (h : k' ≠ k) :
    rget (rset r k v) k' = rget r k' := by
  simp [rget, rfind_rset_ne r k k' v h]

theorem rget_of_mem_nodup (r : Rec) (k : String) (v : Value)
    (hnd : (rkeys r).Nodup) (hmem : (k, v) ∈ r) : rget r k = v := by
  induction r with
  | nil => cases hmem
  | cons p t ih =>
      cases p with
      | mk pk pv =>
          rw [List.mem_cons] at hmem
          rcases hmem with hmem | hmem
          · cases hmem
            simp [rget, rfind]
          · have hnd1 : pk ∉ rkeys t ∧ (rkeys t).Nodup := by
              simpa [rkeys] using hnd
            have hk : pk ≠ k := by
              intro hk
              apply hnd1.1
              subst hk
              rw [rkeys]
              exact List.mem_map.mpr ⟨(pk, v), hmem, rfl⟩
            simpa [rget, rfind, hk] using ih hnd1.2 hmem

theorem errIf_eq_nil (c : Bool) (m : String) (h : errIf c m = []) : c = false := by
  cases c
  · rfl
  · simp [errIf] at h

theorem catAll_cons (a : List String) (rest : List (List String)) :
    catAll (a :: rest) = a ++ catAll rest := rfl

end BasicLemmas

namespace Storage

theorem updFields_rget_price (ex : Rec) (items : List (String × Value)) :
    rget (updFields ex items) "price" = rget ex "price" := by
  induction items generalizing ex with
  | nil => rfl
  | cons p rest ih =>
      cases p with
      | mk k v =>
          by_cases hk : k = "price"
          · subst hk
            simp [updFields, ih]
          · rw [updFields]
            by_cases hset : (!(k == "price") && !(k == "images") && !pyEq (rget ex k) v) = true
            · rw [if_pos hset, ih, rget_rset_ne ex k "price" v (fun h => hk h.symm)]
            · rw [if_neg (by simp_all), ih]

theorem updFields_rget_not_mem (ex : Rec) (items : List (String × Value))
    (k : String) (h : k ∉ items.map Prod.fst) :
    rget (updFields ex items) k = rget ex k := by
  induction items generalizing ex with
  | nil => rfl
  | cons p rest ih =>
      cases p with
      | mk k' v =>
          simp only [List.map_cons, List.mem_cons] at h
          push_neg at h
          rw [updFields]
          by_cases hset : (!(k' == "price") && !(k' == "images") && !pyEq (rget ex k') v) = true
          · rw [if_pos hset, ih _ h.2, rget_rset_ne ex k' k v h.1]
          · rw [if_neg (by simp_all), ih _ h.2]

theorem updFields_eq_self (ex : Rec) (items : List (String × Value))
    (h : ∀ p ∈ items, pyEq (rget ex p.1) p.2 = true) :
    updFields ex items = ex := by
  induction items with
  | nil => rfl
  | cons p rest ih =>
      cases p with
      | mk k v =>
          have hk := h (k, v) (List.mem_cons_self _ _)
          simp only at hk
          rw [updFields, if_neg (by simp [hk])]
          exact ih (fun q hq => h q (List.mem_cons_of_mem _ hq))

theorem updFields_rget_mem (ex : Rec) (items : List (String × Value))
    (k : String) (v : Value) (hnd : (items.map Prod.fst).Nodup)
    (hmem : (k, v) ∈ items) (hk1 : k ≠ "price") (hk2 : k ≠ "images") :
    pyEq (rget (updFields ex items) k) v = true := by
  induction items generalizing ex with
  | nil => cases hmem
  | cons p rest ih =>
      cases p with
      | mk k' v' =>
          simp only [List.map_cons, List.nodup_cons] at hnd
          rw [List.mem_cons] at hmem
          rcases hmem with hmem | hmem
          · cases hmem
            have hrest : k ∉ rest.map Prod.fst := hnd.1
            rcases heq : pyEq (rget ex k) v with _ | _
            · rw [updFields, if_pos (by simp [hk1, hk2, heq])]
              rw [updFields_rget_not_mem _ _ _ hrest, rget_rset_self]
              exact pyEq_refl v
            · rw [updFields, if_neg (by simp [heq])]
              rw [updFields_rget_not_mem _ _ _ hrest]
              exact heq
          · have hk' : k' ≠ k := by
              intro hh
              apply hnd.1
              subst hh
              exact List.mem_map.mpr ⟨(k', v), hmem, rfl⟩
            rw [updFields]
            by_cases hset : (!(k' == "price") && !(k' == "images") && !pyEq (rget ex k') v') = true
            · rw [if_pos hset]
              exact ih _ hnd.2 hmem
            · rw [if_neg (by simp_all)]
              exact ih _ hnd.2 hmem

theorem find?_append_of_none {α : Type} (p : α → Bool) (l₁ l₂ : List α)
    (h : l₁.find? p = none) : (l₁ ++ l₂).find? p = l₂.find? p := by
  induction l₁ with
  | nil => rfl
  | cons a t ih =>
      rcases ha : p a with _ | _
      · rw [List.find?_cons_of_neg _ (by simp [ha])] at h
        rw [List.cons_append, List.find?_cons_of_neg _ (by simp [ha])]
        exact ih h
      · rw [List.find?_cons_of_pos _ ha] at h
        cases h

theorem upd_append_of_none (p : Rec → Bool) (f : Rec → Rec) (l₁ l₂ : List Rec)
    (h : l₁.find? p = none) : upd (l₁ ++ l₂) p f = l₁ ++ upd l₂ p f := by
  induction l₁ with
  | nil => rfl
  | cons a t ih =>
      rcases ha : p a with _ | _
      · rw [List.find?_cons_of_neg _ (by simp [ha])] at h
        rw [List.cons_append, upd, if_neg (by simp [ha]), ih h, List.cons_append]
      · rw [List.find?_cons_of_pos _ ha] at h
        cases h

theorem matchCount_two_admatch (ex ad : Rec) (h : 2 ≤ matchCount ex ad) :
    admatch ad ex = true := by
  rw [matchCount] at h
  rw [admatch]
  cases h1 : pyEq (rget ex "id") (rget ad "id") <;>
    cases h2 : pyEq (rget ex "url") (rget ad "url") <;>
      cases h3 : pyEq (rget ex "title") (rget ad "title") <;>
        simp_all

theorem rget_map_cols (ad : Rec) (cols : List ColSpec) (k : String)
    (h : k ∈ cols.map (·.name)) :
    rget (cols.map fun c => (c.name, rget ad c.name)) k = rget ad k := by
  induction cols with
  | nil => cases h
  | cons c rest ih =>
      rw [List.map_cons, List.mem_cons] at h
      by_cases hc : c.name = k
      · simp [rget, rfind, hc]
      · rcases h with h | h
        · exact absurd h.symm hc
        · simpa [rget, rfind, hc] using ih h

theorem rget_mkNewAd_mem (ad : Rec) (k : String) (h : k ∈ listingFieldNames) :
    rget (mkNewAd ad) k = rget ad k := by
  rw [mkNewAd]
  exact rget_map_cols ad listingCols k h

theorem cleanAd_keys_sub (db : DB) (c : Rec) :
    ∀ p ∈ cleanAd db c, p.1 ∈ listingFieldNames := by
  intro p hp
  rw [cleanAd, step3] at hp
  rw [List.mem_filter] at hp
  exact List.mem_of_elem_eq_true hp.2

theorem rfind_step3_not_field (ad : Rec) (k : String)
    (h : k ∉ listingFieldNames) : rfind (step3 ad) k = none := by
  rw [step3]
  induction ad with
  | nil => rfl
  | cons p t ih =>
      by_cases hm : p.1 ∈ listingFieldNames
      · have hne : p.1 ≠ k := by
          intro hh
          exact h (hh ▸ hm)
        have hcp : listingFieldNames.contains p.1 = true :=
          List.elem_eq_true_of_mem hm
        simp only [List.filter, hcp]
        rw [rfind, if_neg (by simp [hne])]
        exact ih
      · have hcn : listingFieldNames.contains p.1 = false := by
          rcases hq : listingFieldNames.contains p.1 with _ | _
          · rfl
          · exact absurd (List.mem_of_elem_eq_true hq) hm
        simp only [List.filter, hcn]
        exact ih

theorem imagesOf_cleanAd (db : DB) (c : Rec) : imagesOf (cleanAd db c) = [] := by
  rw [imagesOf, cleanAd]
  rw [rfind_step3_not_field _ _ (by decide)]

theorem insertImages_append (i : Value) (urls : List Value)
    (imgs : List (Value × Value)) :
    ∃ tl, insertImages i urls imgs = imgs ++ tl := by
  induction urls generalizing imgs with
  | nil => exact ⟨[], by simp [insertImages]⟩
  | cons u rest ih =>
      by_cases hv : validate_image_data i u = []
      · obtain ⟨tl, htl⟩ := ih (imgs ++ [(i, u)])
        refine ⟨(i, u) :: tl, ?_⟩
        rw [insertImages] at htl ⊢
        rw [List.foldl_cons, if_pos (by simp [hv]), htl]
        simp
      · obtain ⟨tl, htl⟩ := ih imgs
        refine ⟨tl, ?_⟩
        rw [insertImages] at htl ⊢
        rw [List.foldl_cons, if_neg (by simpa [List.isEmpty_iff] using hv)]
        exact htl

theorem process_ad_cities (db : DB) (c : Rec) :
    (process_ad db c).cities = db.cities := by
  rw [process_ad]
  split
  · rfl
  · split
    · split
      · rfl
      · rfl
    · rfl

end Storage

namespace ScraperLeboncoin

theorem listLeads_iff (n : List Char) : ∀ h : List Char,
    (listLeads n h = true ↔ ∃ t, h = n ++ t) := by
  induction n with
  | nil => intro h; simp [listLeads]
  | cons a as ih =>
      intro h
      cases h with
      | nil =>
          simp [listLeads]
      | cons b bs =>
          simp only [listLeads, Bool.and_eq_true, beq_iff_eq, ih bs]
          constructor
          · rintro ⟨rfl, t, rfl⟩
            exact ⟨t, rfl⟩
          · rintro ⟨t, ht⟩
            simp only [List.cons_append, List.cons.injEq] at ht
            exact ⟨ht.1.symm, t, ht.2⟩

theorem listHasSub_iff (n : List Char) : ∀ h : List Char,
    (listHasSub n h = true ↔ ∃ l r, h = l ++ n ++ r) := by
  intro h
  induction h with
  | nil =>
      simp only [listHasSub, List.isEmpty_iff]
      constructor
      · rintro rfl
        exact ⟨[], [], rfl⟩
      · rintro ⟨l, r, hl⟩
        rcases List.append_eq_nil.mp hl.symm with ⟨h1, h2⟩
        exact (List.append_eq_nil.mp h1).2
  | cons b bs ih =>
      simp only [listHasSub, Bool.or_eq_true, listLeads_iff, ih]
      constructor
      · rintro (⟨t, ht⟩ | ⟨l, r, hr⟩)
        · exact ⟨[], t, by simpa using ht⟩
        · exact ⟨b :: l, r, by rw [hr]; simp⟩
      · rintro ⟨l, r, hr⟩
        cases l with
        | nil =>
            left
            exact ⟨r, by simpa using hr⟩
        | cons x xs =>
            right
            simp only [List.cons_append, List.cons.injEq] at hr
            exact ⟨xs, r, hr.2⟩

theorem strHasSub_iff (nd hay : String) :
    strHasSub nd hay = true ↔ ∃ l r, hay.data = l ++ nd.data ++ r := by
  rw [strHasSub]
  exact listHasSub_iff nd.data hay.data

end ScraperLeboncoin

namespace ScraperLeboncoin

/-- C7 (counterexample): the claim states `toInt("1 234")` returns 1234;
in the code `to_int` is a bare `int(value)`, which raises on the inner
space, so the call returns no-value instead. -/
theorem to_int_space_counterexample : to_int (vstr "1 234") ≠ some 1234 := by
  decide

/-- C7 (amended): the coercion equations as the code satisfies them —
`toInt("1 234")` is no-value (no space/comma normalization in `to_int`);
`toFloat` accepts the space/comma variants (`"12,5"` → 12.5,
`"1 234,5"` → 1234.5); non-numeric strings coerce to no-value; and
`mapEnum("pro", ownerMap, "private")` → `"professional"` with every
unmapped input returning the default without failing. -/
theorem coercion_equations (v : Value) (h1 : v ≠ vstr "pro")
    (h2 : v ≠ vstr "particulier") :
    to_int (vstr "1 234") = none ∧
    (to_float (vstr "12,5")).map PFloat.toRat = some (25 / 2 : ℚ) ∧
    (to_float (vstr "1 234,5")).map PFloat.toRat = some (2469 / 2 : ℚ) ∧
    to_float (vstr "abc") = none ∧
    to_int (vstr "abc") = none ∧
    map_owner_type (vstr "pro") = "professional" ∧
    map_owner_type v = "private" := by
  refine ⟨by decide, ?_, ?_, by decide, by decide, by decide, ?_⟩
  · have h : to_float (vstr "12,5") = some ⟨125, 1⟩ := by decide
    rw [h]
    simp [PFloat.toRat]
    norm_num
  · have h : to_float (vstr "1 234,5") = some ⟨12345, 1⟩ := by decide
    rw [h]
    simp [PFloat.toRat]
    norm_num
  · rw [map_owner_type, if_neg h1, if_neg h2]

/-- C7 (witness): the amended equations instantiated at the unmapped
owner-type string `"agency"`. -/
theorem coercion_equations_witness :
    to_int (vstr "1 234") = none ∧
    (to_float (vstr "12,5")).map PFloat.toRat = some (25 / 2 : ℚ) ∧
    (to_float (vstr "1 234,5")).map PFloat.toRat = some (2469 / 2 : ℚ) ∧
    to_float (vstr "abc") = none ∧
    to_int (vstr "abc") = none ∧
    map_owner_type (vstr "pro") = "professional" ∧
    map_owner_type (vstr "agency") = "private" :=
  coercion_equations (vstr "agency") (by decide) (by decide)

/-- C8 (counterexample): the claim says any non-empty value other than
`"true"` coerces via generic truthiness and a missing input yields
no-value; the code returns `False` for the truthy string `"yes"` and a
plain `False` (not a no-value) for `None`. -/
theorem to_bool_counterexample :
    to_bool (vstr "yes") = false ∧ pyTruthy (vstr "yes") = true ∧
    to_bool vnull = false := by
  decide

/-- C8 (amended): `to_bool` returns `true` exactly for a string whose
lowercasing is `"true"`, or for a truthy non-string; every other string
(truthy or not) and a missing/empty input give `false` — the function
always returns a definite boolean, never a no-value. -/
theorem to_bool_characterization (v : Value) :
    to_bool v = true ↔
      ((∃ s, v = vstr s ∧ pyLower s = "true") ∨
        (vIsStr v = false ∧ pyTruthy v = true)) := by
  cases v with
  | vstr s => simp [to_bool, vIsStr]
  | vnull => simp [to_bool, vIsStr, pyTruthy]
  | vint n => simp [to_bool, vIsStr, pyTruthy]
  | vfloat f => simp [to_bool, vIsStr, pyTruthy]
  | vbool b => simp [to_bool, vIsStr, pyTruthy]
  | vlist l => simp [to_bool, vIsStr, pyTruthy]

/-- C9 (counterexample): the claim says any input longer than one
character yields no-value; `'AB' in 'ABCDEFG'` is a substring test, so
the two-character input `"ab"` is accepted and uppercased. -/
theorem validate_energy_rate_substring_counterexample :
    validate_energy_rate (vstr "ab") = vstr "AB" ∧
    ("ab" : String).length = 2 := by
  constructor
  · decide
  · decide

/-- C9 (amended): `validate_energy_rate` returns the uppercased input
exactly when the input string is non-empty and its uppercasing is a
contiguous substring of `"ABCDEFG"` — single letters A–G (either case)
are accepted and `"h"` rejected, but multi-letter runs such as `"ab"`
are accepted too; `None` stays no-value. -/
theorem validate_energy_rate_characterization (s r : String) :
    (validate_energy_rate (vstr s) = vstr r ↔
      (s ≠ "" ∧ r = pyUpper s ∧
        ∃ l m, ("ABCDEFG" : String).data = l ++ (pyUpper s).data ++ m)) ∧
    validate_energy_rate vnull = vnull := by
  constructor
  · rw [validate_energy_rate]
    by_cases hs : (s != "" && strHasSub (pyUpper s) "ABCDEFG") = true
    · rw [if_pos hs]
      rw [Bool.and_eq_true, bne_iff_ne] at hs
      constructor
      · intro he
        have hr : pyUpper s = r := by
          simpa using he
        exact ⟨hs.1, hr.symm, (strHasSub_iff _ _).mp hs.2⟩
      · rintro ⟨_, rfl, _⟩
        rfl
    · rw [if_neg hs]
      constructor
      · intro he
        cases he
      · rintro ⟨hne, rfl, l, m, hm⟩
        exact absurd (by
          rw [Bool.and_eq_true, bne_iff_ne]
          exact ⟨hne, (strHasSub_iff _ _).mpr ⟨l, m, hm⟩⟩) hs
  · rfl

end ScraperLeboncoin

namespace Storage

/-- A stored listing row and candidates used by the concrete witnesses:
a minimal valid candidate dict (id 1, title `"T"`, url `"u"`, price `p`). -/
def baseCand (p : Int) : Rec :=
  [("id", vint 1), ("title", vstr "T"), ("url", vstr "u"),
   ("publication_date", vstr "2024-01-01"), ("price", vint p),
   ("status", vstr "active"), ("type", vstr "private"),
   ("real_estate_type", vstr "House"), ("location_inseecode", vstr "75056")]

/-- The stored row obtained from `baseCand 100` (price 100, all other
columns defaulted). -/
def exListing : Rec := mkNewAd (baseCand 100)

/-- A stored row agreeing with `baseCand p` only on the title. -/
def titleOnlyListing : Rec :=
  mkNewAd [("id", vint 7), ("title", vstr "T"), ("url", vstr "w"),
    ("publication_date", vstr "d"), ("price", vint 5),
    ("status", vstr "active"), ("type", vstr "private"),
    ("real_estate_type", vstr "Other"), ("location_inseecode", vstr "00001")]

/-- A store whose disjunctive query returns `titleOnlyListing` first even
though `exListing` agrees with the candidate on all three keys. -/
def twoListingDb : DB := ⟨[], [titleOnlyListing, exListing], []⟩

/-- C10: when the disjunctive id/url/title query finds a first record
that agrees with the candidate on fewer than two of the three keys,
`process_ad` changes nothing — no row is inserted or updated — even if a
different stored record agrees on two or more keys. -/
theorem partial_first_match_noop (db : DB) (c r : Rec)
    (hval : validate_data (cleanAd db c) = [])
    (hfind : db.listings.find? (admatch (cleanAd db c)) = some r)
    (hcnt : matchCount r (cleanAd db c) < 2) :
    process_ad db c = db := by
  rw [process_ad, if_neg (by simp [hval]), hfind]
  exact if_neg (by omega)

/-- C10 (witness): a store holding first a title-only partial match and
then a record agreeing on all three keys; `process_ad` is a no-op. -/
theorem partial_first_match_noop_witness :
    process_ad twoListingDb (baseCand 120) = twoListingDb ∧
    2 ≤ matchCount exListing (cleanAd twoListingDb (baseCand 120)) :=
  ⟨partial_first_match_noop twoListingDb (baseCand 120) titleOnlyListing
      (by decide) (by decide) (by decide),
    by decide⟩

/-- C6 (amended): `process_ad` never inserts, removes or modifies any
image row: step 3 drops the candidate's `images` key (`images` is a
relationship, not a `Listing` column), so the insert branch's image loop
iterates over nothing, and the update branch has no image handling at
all. -/
theorem process_ad_images (db : DB) (c : Rec) :
    (process_ad db c).images = db.images := by
  rw [process_ad]
  split
  · rfl
  · split
    · split
      · rfl
      · rfl
    · simp [imagesOf_cleanAd, insertImages]

/-- The accepted-match scenario for C6: stored listing with one image
row, candidate carrying a new image URL. -/
def imgDb : DB := ⟨[], [exListing], [(vint 1, vstr "img1")]⟩

/-- The candidate for C6: matches `exListing` on id/url/title and brings
a new image URL `"img2"`. -/
def imgCand : Rec := baseCand 120 ++ [("images", vlist [vstr "img2"])]

/-- C6 (counterexample): the claim says every candidate image URL not
already stored is inserted on an accepted match; here the candidate's
`"img2"` is NOT inserted — the image table is unchanged — although the
match is accepted (all three keys agree). -/
theorem images_not_inserted_counterexample :
    (process_ad imgDb imgCand).images = [(vint 1, vstr "img1")] ∧
    ¬ ((vint 1, vstr "img2") ∈ (process_ad imgDb imgCand).images) ∧
    imgDb.listings.find? (admatch (cleanAd imgDb imgCand)) = some exListing ∧
    2 ≤ matchCount exListing (cleanAd imgDb imgCand) := by
  refine ⟨by decide, by decide, by decide, by decide⟩

end Storage

namespace ScraperBase

/-- C1: for a crawl whose known-listings set contains ad X, a page whose
ad list is `[A, B, X, C]` (A, B, C unknown) leads to exactly A and B
being transformed and upserted, in order; the crawl for the city stops at
X — X and C are never processed, no later page is touched — and the
returned processed count is 2. -/
theorem scrape_listings_early_stop {α : Type} (transform : α → Rec)
    (store : List Value) (A B X C : α) (rest : List (Option (List α)))
    (db : Storage.DB)
    (hA : is_known_listing (transform A) (get_known_listings store) = false)
    (hB : is_known_listing (transform B) (get_known_listings store) = false)
    (hX : is_known_listing (transform X) (get_known_listings store) = true) :
    scrape_listings transform (get_known_listings store)
        (some [A, B, X, C] :: rest) db 0 =
      ⟨[transform A, transform B],
        Storage.process_ad (Storage.process_ad db (transform A)) (transform B),
        2, true⟩ := by
  simp [scrape_listings, adsLoop, hA, hB, hX]

/-- C1 (witness): the early-stop theorem instantiated with concrete ads
(identified by their URLs a, b, x, c), the known set `{x}`, an empty
database, and a second page that is never reached. -/
theorem scrape_listings_early_stop_witness :
    scrape_listings (fun r => r) (get_known_listings [vstr "x"])
        (some [[("url", vstr "a")], [("url", vstr "b")],
               [("url", vstr "x")], [("url", vstr "c")]] ::
          [some [[("url", vstr "c")]]]) ⟨[], [], []⟩ 0 =
      ⟨[[("url", vstr "a")], [("url", vstr "b")]],
        Storage.process_ad (Storage.process_ad ⟨[], [], []⟩ [("url", vstr "a")])
          [("url", vstr "b")],
        2, true⟩ :=
  scrape_listings_early_stop (fun r => r) [vstr "x"]
    [("url", vstr "a")] [("url", vstr "b")] [("url", vstr "x")]
    [("url", vstr "c")] [some [[("url", vstr "c")]]] ⟨[], [], []⟩
    (by decide) (by decide) (by decide)

end ScraperBase

namespace Utils

theorem bnot_eq_false {b : Bool} (h : (!b) = false) : b = true := by
  cases b
  · cases h
  · rfl

theorem bor_eq_false {a b : Bool} (h : (a || b) = false) :
    a = false ∧ b = false := by
  cases a <;> cases b <;> simp_all

theorem band_eq_false {a b : Bool} (h : (a && b) = false) :
    a = false ∨ b = false := by
  cases a <;> simp_all

theorem validate_nil_schema (ad : Rec) (hv : validate_data ad = []) :
    vIsInt (rget ad "id") = true ∧
    pyTruthy (rget ad "publication_date") = true ∧
    pyInStrs (rget ad "status") ["active", "inactive"] = true ∧
    pyTruthy (rget ad "title") = true ∧ vLen (rget ad "title") ≤ 100 ∧
    pyTruthy (rget ad "url") = true ∧ vLen (rget ad "url") ≤ 255 ∧
    vIsNum (rget ad "price") = true ∧
    pyInStrs (rget ad "type") ["professional", "private"] = true ∧
    pyInStrs (rget ad "real_estate_type")
      ["Apartment", "House", "Other", "Parking", "Land"] = true ∧
    (pyTruthy (rget ad "energy_rate") = true →
      regexAG (rget ad "energy_rate") = true) ∧
    (pyTruthy (rget ad "ges") = true → regexAG (rget ad "ges") = true) ∧
    pyTruthy (rget ad "images") = true ∧ vIsList (rget ad "images") = true ∧
    allStr (rget ad "images") = true ∧ vLen (rget ad "images") ≠ 0 := by
  rw [validate_data] at hv
  simp only [catAll, List.foldr_cons, List.foldr_nil, List.append_eq_nil] at hv
  obtain ⟨h1, h2, h3, h4, h5, h6, h7, h8, h9, h10, h11, h12, h13, h14, h15,
    h16, h17, h18, h19, h20, h21, h22, h23, h24, h25, h26, h27, h28, h29,
    h30, h31, h32, h33⟩ := hv
  have c1 := bnot_eq_false (errIf_eq_nil _ _ h1)
  have c2 := bnot_eq_false (errIf_eq_nil _ _ h2)
  have c3 := bnot_eq_false (errIf_eq_nil _ _ h3)
  have c4 := bor_eq_false (errIf_eq_nil _ _ h4)
  have c5 := bor_eq_false (errIf_eq_nil _ _ h5)
  have c6 := bnot_eq_false (errIf_eq_nil _ _ h6)
  have c11 := bnot_eq_false (errIf_eq_nil _ _ h11)
  have c12 := bnot_eq_false (errIf_eq_nil _ _ h12)
  have c15 := band_eq_false (errIf_eq_nil _ _ h15)
  have c16 := band_eq_false (errIf_eq_nil _ _ h16)
  have c33 := bor_eq_false (errIf_eq_nil _ _ h33.1)
  have c33a := bor_eq_false c33.1
  have c33b := bor_eq_false c33a.1
  refine ⟨c1, c2, c3, bnot_eq_false c4.1,
    Nat.le_of_not_lt (of_decide_eq_false c4.2),
    bnot_eq_false c5.1, Nat.le_of_not_lt (of_decide_eq_false c5.2),
    c6, c11, c12, ?_, ?_, bnot_eq_false c33b.1, bnot_eq_false c33b.2,
    bnot_eq_false c33a.2, ?_⟩
  · intro he
    rcases c15 with c15 | c15
    · rw [he] at c15
      cases c15
    · exact bnot_eq_false c15
  · intro he
    rcases c16 with c16 | c16
    · rw [he] at c16
      cases c16
    · exact bnot_eq_false c16
  · intro hz
    rw [hz] at c33
    simp at c33

end Utils

namespace ScraperLeboncoin

/-- A raw ad whose price string is negative but which is otherwise fully
valid: the normalization/validation pipeline accepts it. -/
def rawAdNegPrice : RawAd :=
  { list_id := vint 123,
    first_publication_date := vstr "2024-01-01 00:00:00",
    status := vstr "active",
    subject := vstr "Nice flat",
    body := vstr "",
    url := vstr "https://x/1",
    price := vstr "-5",
    owner := [("type", vstr "pro")],
    images := [("urls_large", vlist [vstr "https://img/1"])] }

/-- The same raw ad with a positive price, for the witness. -/
def rawAdPosPrice : RawAd :=
  { list_id := vint 123,
    first_publication_date := vstr "2024-01-01 00:00:00",
    status := vstr "active",
    subject := vstr "Nice flat",
    body := vstr "",
    url := vstr "https://x/1",
    price := vstr "5",
    owner := [("type", vstr "pro")],
    images := [("urls_large", vlist [vstr "https://img/1"])] }

end ScraperLeboncoin

/-- C5 (counterexample): the claim says a listing violating any §3
constraint — the non-negative price included — is never accepted with an
empty error list; this raw ad normalizes to a candidate with price −5
and `validate_data` returns `[]` for it (no validator checks price
non-negativity). -/
theorem normalize_validate_negative_price_counterexample :
    Utils.validate_data (ScraperLeboncoin.extractAd ScraperLeboncoin.rawAdNegPrice) = [] ∧
    rget (ScraperLeboncoin.extractAd ScraperLeboncoin.rawAdNegPrice) "price" =
      vfloat ⟨-5, 0⟩ ∧
    PFloat.toRat ⟨-5, 0⟩ < 0 := by
  refine ⟨by decide, by decide, ?_⟩
  norm_num [PFloat.toRat]

/-- C5 (amended): normalization followed by validation either rejects the
ad with a non-empty error list or accepts a listing satisfying the §3
constraints that the validator actually enforces — present title/url
within the 100/255 length bounds, status/owner/real-estate enums, single
letter A–G for a set energy_rate/ges, a present numeric price, and a
non-empty list of image URLs — but NOT price non-negativity, which no
validator checks, so a negative-price listing is accepted. -/
theorem normalize_validate_schema (r : ScraperLeboncoin.RawAd)
    (hv : Utils.validate_data (ScraperLeboncoin.extractAd r) = []) :
    vIsInt (rget (ScraperLeboncoin.extractAd r) "id") = true ∧
    pyTruthy (rget (ScraperLeboncoin.extractAd r) "publication_date") = true ∧
    Utils.pyInStrs (rget (ScraperLeboncoin.extractAd r) "status")
      ["active", "inactive"] = true ∧
    pyTruthy (rget (ScraperLeboncoin.extractAd r) "title") = true ∧
    vLen (rget (ScraperLeboncoin.extractAd r) "title") ≤ 100 ∧
    pyTruthy (rget (ScraperLeboncoin.extractAd r) "url") = true ∧
    vLen (rget (ScraperLeboncoin.extractAd r) "url") ≤ 255 ∧
    vIsNum (rget (ScraperLeboncoin.extractAd r) "price") = true ∧
    Utils.pyInStrs (rget (ScraperLeboncoin.extractAd r) "type")
      ["professional", "private"] = true ∧
    Utils.pyInStrs (rget (ScraperLeboncoin.extractAd r) "real_estate_type")
      ["Apartment", "House", "Other", "Parking", "Land"] = true ∧
    (pyTruthy (rget (ScraperLeboncoin.extractAd r) "energy_rate") = true →
      regexAG (rget (ScraperLeboncoin.extractAd r) "energy_rate") = true) ∧
    (pyTruthy (rget (ScraperLeboncoin.extractAd r) "ges") = true →
      regexAG (rget (ScraperLeboncoin.extractAd r) "ges") = true) ∧
    pyTruthy (rget (ScraperLeboncoin.extractAd r) "images") = true ∧
    vIsList (rget (ScraperLeboncoin.extractAd r) "images") = true ∧
    Utils.allStr (rget (ScraperLeboncoin.extractAd r) "images") = true ∧
    vLen (rget (ScraperLeboncoin.extractAd r) "images") ≠ 0 :=
  Utils.validate_nil_schema _ hv

/-- C5 (witness): the amended guarantee instantiated at the concrete
positive-price raw ad. -/
theorem normalize_validate_schema_witness :
    pyTruthy (rget (ScraperLeboncoin.extractAd ScraperLeboncoin.rawAdPosPrice)
      "title") = true ∧
    vIsNum (rget (ScraperLeboncoin.extractAd ScraperLeboncoin.rawAdPosPrice)
      "price") = true ∧
    Utils.pyInStrs (rget (ScraperLeboncoin.extractAd ScraperLeboncoin.rawAdPosPrice)
      "status") ["active", "inactive"] = true :=
  have h := normalize_validate_schema ScraperLeboncoin.rawAdPosPrice (by decide)
  ⟨h.2.2.2.1, h.2.2.2.2.2.2.2.1, h.2.2.1⟩

namespace Storage

theorem find?_decomp {α : Type} (p : α → Bool) (l : List α) (r : α)
    (h : l.find? p = some r) :
    ∃ pre post, l = pre ++ r :: post ∧ pre.find? p = none ∧ p r = true := by
  induction l with
  | nil => cases h
  | cons a t ih =>
      rcases ha : p a with _ | _
      · rw [List.find?_cons_of_neg _ (by simp [ha])] at h
        obtain ⟨pre, post, h1, h2, h3⟩ := ih h
        refine ⟨a :: pre, post, by rw [h1]; rfl, ?_, h3⟩
        rw [List.find?_cons_of_neg _ (by simp [ha])]
        exact h2
      · rw [List.find?_cons_of_pos _ ha] at h
        cases h
        exact ⟨[], t, rfl, rfl, ha⟩

theorem upd_cons_pos (p : Rec → Bool) (f : Rec → Rec) (r : Rec)
    (post : List Rec) (h : p r = true) : upd (r :: post) p f = f r :: post := by
  rw [upd, if_pos h]

theorem applyPrice_rget_other (ex ad : Rec) (k : String)
    (h1 : k ≠ "price") (h2 : k ≠ "old_price") :
    rget (applyPrice ex ad) k = rget ex k := by
  rw [applyPrice]
  by_cases hc : (!pyEq (rget ex "price") (rget ad "price")) = true
  · rw [if_pos hc, rget_rset_ne _ _ _ _ h1, rget_rset_ne _ _ _ _ h2]
  · rw [if_neg hc]

/-- C3: when the disjunctive query finds a stored record, the candidate
is applied as an update of exactly that record when at least 2 of the 3
keys (id, url, title) agree, and when fewer than 2 agree the store is
left entirely unchanged; in the id+url case the stored title becomes the
candidate's title. -/
theorem identity_two_of_three (db : DB) (c r : Rec)
    (hval : validate_data (cleanAd db c) = [])
    (hfind : db.listings.find? (admatch (cleanAd db c)) = some r) :
    (2 ≤ matchCount r (cleanAd db c) →
      ∃ pre post, db.listings = pre ++ r :: post ∧
        (process_ad db c).listings =
          pre ++ applyPrice (updFields r (cleanAd db c)) (cleanAd db c) :: post) ∧
    (matchCount r (cleanAd db c) < 2 → process_ad db c = db) ∧
    (pyEq (rget r "id") (rget (cleanAd db c) "id") = true →
      pyEq (rget r "url") (rget (cleanAd db c) "url") = true →
      (rkeys (cleanAd db c)).Nodup → "title" ∈ rkeys (cleanAd db c) →
      pyEq (rget (applyPrice (updFields r (cleanAd db c)) (cleanAd db c)) "title")
        (rget (cleanAd db c) "title") = true) := by
  refine ⟨?_, ?_, ?_⟩
  · intro hcnt
    obtain ⟨pre, post, hdec, hpre, hpr⟩ := find?_decomp _ _ _ hfind
    refine ⟨pre, post, hdec, ?_⟩
    rw [process_ad, if_neg (by simp [hval]), hfind]
    show (if 2 ≤ matchCount r (cleanAd db c) then
        (⟨db.cities,
          upd db.listings (admatch (cleanAd db c))
            (fun x => applyPrice (updFields x (cleanAd db c)) (cleanAd db c)),
          db.images⟩ : DB)
      else db).listings = _
    rw [if_pos hcnt]
    show upd db.listings (admatch (cleanAd db c)) _ = _
    rw [hdec, upd_append_of_none _ _ _ _ hpre,
      upd_cons_pos _ _ _ _ hpr]
  · intro hcnt
    rw [process_ad, if_neg (by simp [hval]), hfind]
    exact if_neg (by omega)
  · intro hid hurl hnd htit
    obtain ⟨v, hv⟩ : ∃ v, ("title", v) ∈ cleanAd db c := by
      rw [rkeys] at htit
      obtain ⟨⟨pk, pv⟩, hp, hpk⟩ := List.mem_map.mp htit
      simp only at hpk
      subst hpk
      exact ⟨pv, hp⟩
    have hvv : rget (cleanAd db c) "title" = v :=
      rget_of_mem_nodup _ _ _ hnd hv
    rw [applyPrice_rget_other _ _ _ (by decide) (by decide), hvv]
    exact updFields_rget_mem r _ _ _ hnd hv (by decide) (by decide)

/-- A one-listing store used by the C2/C3 witnesses. -/
def singleDb : DB := ⟨[], [exListing], []⟩

/-- A candidate agreeing with `exListing` on id and url but not title. -/
def candIdUrl : Rec :=
  [("id", vint 1), ("title", vstr "T2"), ("url", vstr "u"),
   ("publication_date", vstr "2024-01-01"), ("price", vint 120),
   ("status", vstr "active"), ("type", vstr "private"),
   ("real_estate_type", vstr "House"), ("location_inseecode", vstr "75056")]

/-- A candidate agreeing with `exListing` only on the title. -/
def candTitleOnly : Rec :=
  [("id", vint 9), ("title", vstr "T"), ("url", vstr "zz"),
   ("publication_date", vstr "2024-01-01"), ("price", vint 120),
   ("status", vstr "active"), ("type", vstr "private"),
   ("real_estate_type", vstr "House"), ("location_inseecode", vstr "75056")]

/-- C3 (witness): the id+url candidate updates the stored record (and its
title), while the title-only candidate leaves the store untouched. -/
theorem identity_two_of_three_witness :
    (∃ pre post, singleDb.listings = pre ++ exListing :: post ∧
      (process_ad singleDb candIdUrl).listings =
        pre ++ applyPrice (updFields exListing (cleanAd singleDb candIdUrl))
          (cleanAd singleDb candIdUrl) :: post) ∧
    process_ad singleDb candTitleOnly = singleDb ∧
    pyEq (rget (applyPrice (updFields exListing (cleanAd singleDb candIdUrl))
        (cleanAd singleDb candIdUrl)) "title")
      (rget (cleanAd singleDb candIdUrl) "title") = true :=
  ⟨(identity_two_of_three singleDb candIdUrl exListing (by decide)
      (by decide)).1 (by decide),
   (identity_two_of_three singleDb candTitleOnly exListing (by decide)
      (by decide)).2.1 (by decide),
   (identity_two_of_three singleDb candIdUrl exListing (by decide)
      (by decide)).2.2 (by decide) (by decide) (by decide) (by decide)⟩

/-- C4: upserting a valid candidate that matches no stored record inserts
exactly one row, and repeating the identical upsert changes nothing at
all — no second row and no field change (in particular no `old_price`
churn). -/
theorem process_ad_idempotent (db : DB) (c : Rec)
    (hval : validate_data (cleanAd db c) = [])
    (hnodup : (rkeys (cleanAd db c)).Nodup)
    (hnew : db.listings.find? (admatch (cleanAd db c)) = none) :
    (process_ad db c).listings.length = db.listings.length + 1 ∧
    process_ad (process_ad db c) c = process_ad db c := by
  have hins : process_ad db c =
      ⟨db.cities, db.listings ++ [mkNewAd (cleanAd db c)], db.images⟩ := by
    rw [process_ad, if_neg (by simp [hval]), hnew, imagesOf_cleanAd]
    rfl
  have hclean2 :
      cleanAd (⟨db.cities, db.listings ++ [mkNewAd (cleanAd db c)],
        db.images⟩ : DB) c = cleanAd db c := rfl
  have hmatch : admatch (cleanAd db c) (mkNewAd (cleanAd db c)) = true := by
    rw [admatch, rget_mkNewAd_mem _ _ (by decide),
      rget_mkNewAd_mem _ _ (by decide), rget_mkNewAd_mem _ _ (by decide)]
    simp [pyEq_refl]
  constructor
  · rw [hins]
    simp
  · rw [hins]
    have hfind2 : ((db.listings ++ [mkNewAd (cleanAd db c)]).find?
        (admatch (cleanAd db c))) = some (mkNewAd (cleanAd db c)) := by
      rw [find?_append_of_none _ _ _ hnew, List.find?_cons_of_pos _ hmatch]
    have hcnt : 2 ≤ matchCount (mkNewAd (cleanAd db c)) (cleanAd db c) := by
      rw [matchCount, rget_mkNewAd_mem _ _ (by decide),
        rget_mkNewAd_mem _ _ (by decide), rget_mkNewAd_mem _ _ (by decide)]
      simp [pyEq_refl]
    have hupdf : updFields (mkNewAd (cleanAd db c)) (cleanAd db c) =
        mkNewAd (cleanAd db c) := by
      apply updFields_eq_self
      intro p hp
      rw [rget_mkNewAd_mem _ _ (cleanAd_keys_sub db c p hp),
        rget_of_mem_nodup _ _ _ hnodup (by simpa using hp)]
      exact pyEq_refl _
    have happ : applyPrice (mkNewAd (cleanAd db c)) (cleanAd db c) =
        mkNewAd (cleanAd db c) := by
      rw [applyPrice, if_neg ?_]
      rw [rget_mkNewAd_mem _ _ (by decide)]
      simp [pyEq_refl]
    have hupd : upd (db.listings ++ [mkNewAd (cleanAd db c)])
        (admatch (cleanAd db c))
        (fun r => applyPrice (updFields r (cleanAd db c)) (cleanAd db c)) =
        db.listings ++ [mkNewAd (cleanAd db c)] := by
      rw [upd_append_of_none _ _ _ _ hnew, upd_cons_pos _ _ _ _ hmatch]
      rw [hupdf, happ]
    rw [process_ad, hclean2, if_neg (by simp [hval]), hfind2]
    show (if 2 ≤ matchCount (mkNewAd (cleanAd db c)) (cleanAd db c) then
        (⟨db.cities,
          upd (db.listings ++ [mkNewAd (cleanAd db c)]) (admatch (cleanAd db c))
            (fun r => applyPrice (updFields r (cleanAd db c)) (cleanAd db c)),
          db.images⟩ : DB)
      else ⟨db.cities, db.listings ++ [mkNewAd (cleanAd db c)], db.images⟩) = _
    rw [if_pos hcnt, hupd]

/-- C4 (witness): inserting the base candidate into an empty store once,
then again. -/
theorem process_ad_idempotent_witness :
    (process_ad (⟨[], [], []⟩ : DB) (baseCand 100)).listings.length =
      ([] : List Rec).length + 1 ∧
    process_ad (process_ad (⟨[], [], []⟩ : DB) (baseCand 100)) (baseCand 100) =
      process_ad (⟨[], [], []⟩ : DB) (baseCand 100) :=
  process_ad_idempotent ⟨[], [], []⟩ (baseCand 100) (by decide) (by decide)
    (by decide)

end Storage

namespace Storage

theorem process_ad_single_update (db : DB) (c L : Rec)
    (hdb : db.listings = [L])
    (hval : validate_data (cleanAd db c) = [])
    (hm : 2 ≤ matchCount L (cleanAd db c)) :
    process_ad db c =
      ⟨db.cities, [applyPrice (updFields L (cleanAd db c)) (cleanAd db c)],
        db.images⟩ := by
  have hfind : db.listings.find? (admatch (cleanAd db c)) = some L := by
    rw [hdb]
    exact List.find?_cons_of_pos _ (matchCount_two_admatch _ _ hm)
  rw [process_ad, if_neg (by simp [hval]), hfind]
  show (if 2 ≤ matchCount L (cleanAd db c) then
      (⟨db.cities,
        upd db.listings (admatch (cleanAd db c))
          (fun x => applyPrice (updFields x (cleanAd db c)) (cleanAd db c)),
        db.images⟩ : DB)
    else db) = _
  rw [if_pos hm, hdb, upd_cons_pos _ _ _ _ (matchCount_two_admatch _ _ hm)]

/-- C2 (amended): with a stored listing of price 100, an accepted-match
candidate of price 120 leaves the row with `price = 120` and
`old_price = 100` (whatever the candidate carries); a subsequent
accepted-match upsert with price 120 leaves `old_price = 100` unchanged
PROVIDED the second candidate does not itself carry an `old_price` key —
the generic update loop excludes only `price` and `images`, so a
candidate `old_price` field overwrites the stored one. -/
theorem price_history (db : DB) (c1 c2 L : Rec)
    (hdb : db.listings = [L])
    (hLp : rget L "price" = vint 100)
    (hval1 : validate_data (cleanAd db c1) = [])
    (hp1 : rget (cleanAd db c1) "price" = vint 120)
    (hm1 : 2 ≤ matchCount L (cleanAd db c1))
    (hval2 : validate_data (cleanAd (process_ad db c1) c2) = [])
    (hp2 : rget (cleanAd (process_ad db c1) c2) "price" = vint 120)
    (hm2 : 2 ≤ matchCount
      (applyPrice (updFields L (cleanAd db c1)) (cleanAd db c1))
      (cleanAd (process_ad db c1) c2))
    (hop2 : "old_price" ∉ rkeys (cleanAd (process_ad db c1) c2)) :
    ∃ L1 L2,
      (process_ad db c1).listings = [L1] ∧
      rget L1 "price" = vint 120 ∧ rget L1 "old_price" = vint 100 ∧
      (process_ad (process_ad db c1) c2).listings = [L2] ∧
      rget L2 "price" = vint 120 ∧ rget L2 "old_price" = vint 100 := by
  have step1 := process_ad_single_update db c1 L hdb hval1 hm1
  have hu1p : rget (updFields L (cleanAd db c1)) "price" = vint 100 := by
    rw [updFields_rget_price, hLp]
  have hL1eq : applyPrice (updFields L (cleanAd db c1)) (cleanAd db c1) =
      rset (rset (updFields L (cleanAd db c1)) "old_price" (vint 100))
        "price" (vint 120) := by
    rw [applyPrice, hu1p, hp1, if_pos (by decide)]
  have hL1p : rget (applyPrice (updFields L (cleanAd db c1)) (cleanAd db c1))
      "price" = vint 120 := by
    rw [hL1eq, rget_rset_self]
  have hL1op : rget (applyPrice (updFields L (cleanAd db c1)) (cleanAd db c1))
      "old_price" = vint 100 := by
    rw [hL1eq, rget_rset_ne _ _ _ _ (by decide), rget_rset_self]
  have hdb1 : (process_ad db c1).listings =
      [applyPrice (updFields L (cleanAd db c1)) (cleanAd db c1)] := by
    rw [step1]
  have step2 := process_ad_single_update (process_ad db c1) c2 _ hdb1 hval2 hm2
  have hu2p : rget (updFields
      (applyPrice (updFields L (cleanAd db c1)) (cleanAd db c1))
      (cleanAd (process_ad db c1) c2)) "price" = vint 120 := by
    rw [updFields_rget_price]
    exact hL1p
  have hu2op : rget (updFields
      (applyPrice (updFields L (cleanAd db c1)) (cleanAd db c1))
      (cleanAd (process_ad db c1) c2)) "old_price" = vint 100 := by
    rw [updFields_rget_not_mem _ _ _ hop2]
    exact hL1op
  refine ⟨applyPrice (updFields L (cleanAd db c1)) (cleanAd db c1),
    applyPrice (updFields (applyPrice (updFields L (cleanAd db c1)) (cleanAd db c1))
      (cleanAd (process_ad db c1) c2)) (cleanAd (process_ad db c1) c2),
    hdb1, hL1p, hL1op, ?_, ?_, ?_⟩
  · rw [step2]
  · rw [applyPrice, hu2p, hp2, if_neg (by decide)]
    exact hu2p
  · rw [applyPrice, hu2p, hp2, if_neg (by decide)]
    exact hu2op

/-- A candidate like `baseCand p` but carrying an explicit
`old_price = None` field, as the leboncoin normalizers always produce. -/
def opCand (p : Int) : Rec := baseCand p ++ [("old_price", vnull)]

/-- C2 (counterexample): with candidates that carry an `old_price` field
(as the pipeline's normalizers always do), the first accepted-match
upsert of price 120 over stored price 100 does set `price = 120`,
`old_price = 100` — but the second identical upsert resets `old_price`
to the candidate's `None`, contradicting the claim that it stays 100. -/
theorem price_history_counterexample :
    ((process_ad singleDb (opCand 120)).listings.map
        (fun r => (rget r "price", rget r "old_price"))) =
      [(vint 120, vint 100)] ∧
    ((process_ad (process_ad singleDb (opCand 120)) (opCand 120)).listings.map
        (fun r => (rget r "price", rget r "old_price"))) =
      [(vint 120, vnull)] ∧
    vnull ≠ vint 100 := by
  refine ⟨by decide, by decide, by decide⟩

/-- C2 (witness): the amended price-history property at the concrete
one-listing store, with second candidate carrying no `old_price` key. -/
theorem price_history_witness :
    ∃ L1 L2,
      (process_ad singleDb (baseCand 120)).listings = [L1] ∧
      rget L1 "price" = vint 120 ∧ rget L1 "old_price" = vint 100 ∧
      (process_ad (process_ad singleDb (baseCand 120))
        (baseCand 120)).listings = [L2] ∧
      rget L2 "price" = vint 120 ∧ rget L2 "old_price" = vint 100 :=
  price_history singleDb (baseCand 120) (baseCand 120) exListing
    (by decide) (by decide) (by decide) (by decide) (by decide)
    (by decide) (by decide) (by decide) (by decide)

end Storage

namespace ScraperLeboncoin

/-- C8 (witness): the characterization instantiated at the mixed-case
string `"TrUe"`. -/
theorem to_bool_characterization_witness :
    to_bool (vstr "TrUe") = true ↔
      ((∃ s, vstr "TrUe" = vstr s ∧ pyLower s = "true") ∨
        (vIsStr (vstr "TrUe") = false ∧ pyTruthy (vstr "TrUe") = true)) :=
  to_bool_characterization (vstr "TrUe")

/-- C9 (witness): the characterization instantiated at the single
letter `"c"`. -/
theorem validate_energy_rate_characterization_witness :
    (validate_energy_rate (vstr "c") = vstr "C" ↔
      ("c" : String) ≠ "" ∧ "C" = pyUpper "c" ∧
        ∃ l m, ("ABCDEFG" : String).data = l ++ (pyUpper "c").data ++ m) ∧
    validate_energy_rate vnull = vnull :=
  validate_energy_rate_characterization "c" "C"

end ScraperLeboncoin
